import Mathlib

/-!
# Log Broadcaster — shallow embedding and verification

A shallow embedding of `core/services/log/broadcaster.go` (the Chainlink
Log Broadcaster) together with proofs about its head-driven dispatch,
replay, backfill, registration and mailbox-drain logic.

Go source fields are modelled as follows: `uint64`/`uint` fields become
`Nat`; `int64` fields (head numbers, backfill block numbers) become `Int`;
`common.Hash` / `common.Address` values are opaque and become `Nat`;
`null.Int64` becomes `Option Int`; a fallible ORM query becomes a
function into `Except`.  Stateful methods become explicit state-passing
functions.  The helper components `logPool`, `registrations` and
`utils.Mailbox` live in files of this repository that are not part of the
sources at hand; where the claims need them they are modelled from the
specification, and each such definition is marked in its doc comment.
-/

namespace LogBroadcaster

/-- An Ethereum raw log (`types.Log`), restricted to the fields the
broadcaster inspects: address, block number, block hash, transaction
index, log index, and the reorg `removed` flag.  A log is uniquely
identified by `(blockHash, logIndex)`. -/
structure RawLog where
  address : Nat
  blockNumber : Nat
  blockHash : Nat
  txIndex : Nat
  logIndex : Nat
  removed : Bool
deriving DecidableEq, Repr

/-- A chain head (`models.Head`) as delivered by the head tracker. -/
structure Head where
  number : Int
  hash : Nat
  parentHash : Nat
deriving DecidableEq, Repr

/-- The broadcaster configuration interface (`Config` in broadcaster.go). -/
structure Config where
  blockBackfillDepth : Nat
  blockBackfillSkip : Bool
  ethFinalityDepth : Nat
  ethLogBackfillBatchSize : Nat
deriving DecidableEq, Repr

/-- Listener options (`ListenerOpts`): contract address, the
topics-with-filters map (modelled as an association list keyed by topic
hash), and the required number of confirmations. -/
structure ListenerOpts where
  contract : Nat
  logsWithTopics : List (Nat × List (List Nat))
  numConfirmations : Nat
deriving DecidableEq, Repr

/-- A registration pairs a listener (identified opaquely) with its
options (`registration` in broadcaster.go). -/
structure Registration where
  listenerId : Nat
  opts : ListenerOpts
deriving DecidableEq, Repr

/-- A consumed-broadcast key `(block_hash, log_index, job_id)` as returned
by the ORM query `FindConsumedLogs`. -/
abbrev ConsumedKey := Nat × Nat × Nat

/-- The rows returned by `FindConsumedLogs`. -/
abbrev Broadcasts := List ConsumedKey

/-! ## Log pool

Modelled from the spec: the repository's `logPool` type (pool.go) is not
among the sources at hand; §4.2 of the specification defines its
operations.  The pool is a collection of unconfirmed logs in which the
key `(blockHash, logIndex)` is unique and insertions for an existing key
overwrite. -/

/-- The in-memory pool of unconfirmed logs. -/
abbrev LogPool := List RawLog

/-- Two logs carry the same pool key `(blockHash, logIndex)`. -/
def sameKey (a b : RawLog) : Bool :=
  a.blockHash == b.blockHash && a.logIndex == b.logIndex

/-- Modelled from the spec: `logPool.addLog` — insert by
`(block_number, block_hash, log_index)`; an insertion for an existing
`(blockHash, logIndex)` key overwrites. -/
def addLog (pool : LogPool) (log : RawLog) : LogPool :=
  pool.filter (fun l => !(sameKey l log)) ++ [log]

/-- Modelled from the spec: `logPool.removeLog` — erase any entry
matching the log's `(blockHash, logIndex)` key. -/
def removeLog (pool : LogPool) (log : RawLog) : LogPool :=
  pool.filter (fun l => !(sameKey l log))

/-- Dispatch ordering on logs: ascending `(blockNumber, txIndex, logIndex)`. -/
def logLE (a b : RawLog) : Bool :=
  a.blockNumber < b.blockNumber ||
    (a.blockNumber == b.blockNumber &&
      (a.txIndex < b.txIndex ||
        (a.txIndex == b.txIndex && a.logIndex ≤ b.logIndex)))

/-- Insert a log into a list sorted by `logLE`. -/
def insertLog (l : RawLog) : List RawLog → List RawLog
  | [] => [l]
  | x :: xs => if logLE l x then l :: x :: xs else x :: insertLog l xs

/-- Sort logs by `(blockNumber, txIndex, logIndex)` (insertion sort). -/
def sortLogs (ls : List RawLog) : List RawLog :=
  ls.foldr insertLog []

/-- The least block number among the given logs (0 when there are none;
the callers only use the value on a non-empty list). -/
def minBlockNumber (ls : List RawLog) : Int :=
  match ls.map (fun l => (l.blockNumber : Int)) with
  | [] => 0
  | x :: xs => xs.foldl min x

/-- The greatest block number among the given logs (0 when there are none). -/
def maxBlockNumber (ls : List RawLog) : Int :=
  match ls.map (fun l => (l.blockNumber : Int)) with
  | [] => 0
  | x :: xs => xs.foldl max x

/-- Modelled from the spec: `logPool.getLogsToSend(latest_block_num)` —
return the logs whose block number is at most `latestBlockNum`, sorted
for dispatch, together with the minimum block number returned.  The pool
itself is not modified by this query. -/
def getLogsToSend (pool : LogPool) (latestBlockNum : Int) : List RawLog × Int :=
  let filtered := pool.filter (fun l => (l.blockNumber : Int) ≤ latestBlockNum)
  (sortLogs filtered, minBlockNumber filtered)

/-- Modelled from the spec: `logPool.getAndDeleteAll()` — return every
log (sorted for dispatch) with the lowest and highest block numbers
present; the caller empties the pool. -/
def getAndDeleteAll (pool : LogPool) : List RawLog × Int × Int :=
  (sortLogs pool, minBlockNumber pool, maxBlockNumber pool)

/-- Modelled from the spec: `logPool.deleteOlderLogs(keptDepth)` — evict
every log whose block number is strictly below the threshold. -/
def deleteOlderLogs (pool : LogPool) (keptDepth : Nat) : LogPool :=
  pool.filter (fun l => keptDepth ≤ l.blockNumber)

/-! ## onNewLog -/

/-- `broadcaster.onNewLog`: a `removed` log is deleted from the pool and
never stored; otherwise the log is added exactly when its address is
registered (`registrations.isAddressRegistered`), and discarded
otherwise.  The registered-address predicate is passed in as a function,
standing for the current `registrations` state. -/
def onNewLog (isAddressRegistered : Nat → Bool) (pool : LogPool)
    (log : RawLog) : LogPool :=
  if log.removed then
    removeLog pool log
  else if !(isAddressRegistered log.address) then
    pool
  else
    addLog pool log

/-! ## Head-driven dispatch (`broadcaster.onNewHeads`, lines 372-435) -/

/-- The observable outcome of one head-driven dispatch pass: the pool
afterwards, the updated `lastSeenHeadNumber`, the `FindConsumedLogs`
queries issued (argument pairs), and the `sendLogs` invocations (their
arguments). -/
structure DispatchResult where
  pool : LogPool
  lastSeenHeadNumber : Int
  findConsumedCalls : List (Int × Int)
  sendLogsCalls : List (List RawLog × Head × Broadcasts)
deriving DecidableEq, Repr

/-- `broadcaster.onNewHeads`, the dispatch pass for a drained latest
head.  `highestNumConfirmations` stands for
`registrations.highestNumConfirmations` and `orm` for
`orm.FindConsumedLogs` (which may fail).  Mirrors the source: update
`lastSeenHeadNumber`; compute the kept depth from `EthFinalityDepth` and
the highest confirmations; when the highest confirmations are zero,
drain the pool entirely with `getAndDeleteAll` and, on a non-empty
result, query the ORM and send; otherwise take `getLogsToSend`, query,
send, and evict with `deleteOlderLogs` — returning early (before the
eviction) when the ORM query fails. -/
def onNewHeadsDispatch (cfg : Config) (highestNumConfirmations : Nat)
    (orm : Int → Int → Except Unit Broadcasts) (latestHead : Head)
    (pool : LogPool) : DispatchResult :=
  let keptLogsDepth : Nat :=
    if highestNumConfirmations > cfg.ethFinalityDepth then
      highestNumConfirmations
    else
      cfg.ethFinalityDepth
  let keptDepth : Int :=
    if latestHead.number - (keptLogsDepth : Int) < 0 then 0
    else latestHead.number - (keptLogsDepth : Int)
  if highestNumConfirmations == 0 then
    let logs := (getAndDeleteAll pool).1
    let lowest := (getAndDeleteAll pool).2.1
    let highest := (getAndDeleteAll pool).2.2
    if logs.length > 0 then
      match orm lowest highest with
      | Except.error _ =>
          { pool := [], lastSeenHeadNumber := latestHead.number,
            findConsumedCalls := [(lowest, highest)], sendLogsCalls := [] }
      | Except.ok broadcasts =>
          { pool := [], lastSeenHeadNumber := latestHead.number,
            findConsumedCalls := [(lowest, highest)],
            sendLogsCalls := [(logs, latestHead, broadcasts)] }
    else
      { pool := [], lastSeenHeadNumber := latestHead.number,
        findConsumedCalls := [], sendLogsCalls := [] }
  else
    let logs := (getLogsToSend pool latestHead.number).1
    let minBlockNum := (getLogsToSend pool latestHead.number).2
    if logs.length > 0 then
      match orm minBlockNum latestHead.number with
      | Except.error _ =>
          { pool := pool, lastSeenHeadNumber := latestHead.number,
            findConsumedCalls := [(minBlockNum, latestHead.number)],
            sendLogsCalls := [] }
      | Except.ok broadcasts =>
          { pool := deleteOlderLogs pool keptDepth.toNat,
            lastSeenHeadNumber := latestHead.number,
            findConsumedCalls := [(minBlockNum, latestHead.number)],
            sendLogsCalls := [(logs, latestHead, broadcasts)] }
    else
      { pool := deleteOlderLogs pool keptDepth.toNat,
        lastSeenHeadNumber := latestHead.number,
        findConsumedCalls := [], sendLogsCalls := [] }

/-! ## Resubscribe backfill seeding (`broadcaster.startResubscribeLoop`, lines 250-270) -/

/-- The two fields of the broadcaster that the backfill-seeding step of
`startResubscribeLoop` reads and writes: `highestSavedHead` (the head
last saved in the DB, handed to `NewBroadcaster`) and
`backfillBlockNumber` (the `null.Int64` override for the backfill
start). -/
structure ResubState where
  highestSavedHead : Option Head
  backfillBlockNumber : Option Int
deriving DecidableEq, Repr

/-- The backfill-seeding step of `broadcaster.startResubscribeLoop`:
when `BlockBackfillSkip` is set and a saved head is present, the saved
head is dropped; then, when a saved head is (still) present, the
backfill start is `highestSavedHead.number - highestNumConfirmations -
BlockBackfillDepth`, clamped at zero, stored into
`backfillBlockNumber`, and the saved head is cleared. -/
def resubBackfillStep (cfg : Config) (highestNumConfirmations : Nat)
    (st : ResubState) : ResubState :=
  let st1 :=
    if cfg.blockBackfillSkip && st.highestSavedHead.isSome then
      { st with highestSavedHead := none }
    else
      st
  match st1.highestSavedHead with
  | some h =>
      let fromBlock : Int :=
        h.number - (highestNumConfirmations : Int) - (cfg.blockBackfillDepth : Int)
      let fromBlock := if fromBlock < 0 then 0 else fromBlock
      { highestSavedHead := none, backfillBlockNumber := some fromBlock }
  | none => st1

/-! ## Replay (`broadcaster.ReplayFromBlock`, lines 160-166, and the
`replayChannel` case of `broadcaster.eventLoop`, lines 343-346) -/

/-- `broadcaster.ReplayFromBlock`: a non-blocking send (`select` with a
`default` arm) of the block number into the capacity-1 `replayChannel`,
modelled as its at-most-one pending value.  When the channel already
holds a pending value the send hits the `default` arm and the new
request is dropped. -/
def ReplayFromBlock (replayChannel : Option Int) (number : Int) : Option Int :=
  match replayChannel with
  | none => some number
  | some pending => some pending

/-- The state of the event loop observable in the replay case:
`backfillBlockNumber` (a `null.Int64`). -/
structure EventLoopState where
  backfillBlockNumber : Option Int
deriving DecidableEq, Repr

/-- The `replayChannel` case of `broadcaster.eventLoop`: on receiving a
block number it sets `backfillBlockNumber` to it and returns
`(shouldResubscribe := true, no error)`. -/
def eventLoopOnReplay (st : EventLoopState) (blockNumber : Int) :
    EventLoopState × Bool × Option Unit :=
  ({ st with backfillBlockNumber := some blockNumber }, true, none)

/-! ## Mailboxes and their drain loops -/

/-- An item sitting in one of the broadcaster's mailboxes.  The Go
mailboxes carry `interface{}` values, so an item of an unexpected
dynamic type can appear; `junkItem` stands for any such value, carrying
its reported type name. -/
inductive MailboxItem where
  | headItem (h : Head)
  | regItem (r : Registration)
  | junkItem (typeName : String)
deriving DecidableEq, Repr

/-- Whether a mailbox item type-asserts to `models.Head`. -/
def MailboxItem.isHead : MailboxItem → Bool
  | .headItem _ => true
  | _ => false

/-- Whether a mailbox item type-asserts to `registration`. -/
def MailboxItem.isReg : MailboxItem → Bool
  | .regItem _ => true
  | _ => false

/-- Modelled from the spec: the latest-only `utils.Mailbox` of capacity
1 used for `newHeads` — `Deliver` replaces any pending item and reports
whether one was dropped. -/
def deliverLatest (mb : Option MailboxItem) (it : MailboxItem) :
    Option MailboxItem × Bool :=
  (some it, mb.isSome)

/-- Deliver a burst of heads into the `newHeads` mailbox, one
`OnNewLongestChain` call per head (broadcaster.go lines 216-221). -/
def deliverAllHeads (mb : Option MailboxItem) (hs : List Head) :
    Option MailboxItem :=
  hs.foldl (fun m h => (deliverLatest m (MailboxItem.headItem h)).1) mb

/-- The head-selection loop at the top of `broadcaster.onNewHeads`:
repeatedly `RetrieveLatestAndClear`, keeping the last item that
type-asserts to a head and skipping (with an error log) any other item.
The argument list is the sequence of items the loop retrieves. -/
def selectLatestHead (items : List MailboxItem) : Option Head :=
  items.foldl
    (fun acc it =>
      match it with
      | MailboxItem.headItem h => some h
      | _ => acc)
    none

/-- The drain loop shared by `broadcaster.onAddSubscribers` and
`broadcaster.onRmSubscribers`: retrieve items until the mailbox is
empty; an item that fails the `registration` type assertion is skipped
(with an error log) and the loop continues; for each registration the
given step (`registrations.addSubscriber` or
`registrations.removeSubscriber`) is applied and its needs-resubscribe
answers are accumulated by disjunction. -/
def drainSubscriberItems {σ : Type} (step : σ → Registration → σ × Bool) :
    List MailboxItem → σ → Bool → σ × Bool
  | [], st, needs => (st, needs)
  | MailboxItem.regItem r :: rest, st, needs =>
      drainSubscriberItems step rest (step st r).1 (needs || (step st r).2)
  | _ :: rest, st, needs => drainSubscriberItems step rest st needs

/-! ## onNewHeads end to end for a burst of heads -/

/-- The observable outcome of servicing the `newHeads` mailbox once:
which heads drove a dispatch pass, and the resulting pool and
`lastSeenHeadNumber`. -/
structure HeadsRunResult where
  dispatchedHeads : List Head
  pool : LogPool
  lastSeenHeadNumber : Int
deriving DecidableEq, Repr

/-- One servicing of the `newHeads` mailbox by `broadcaster.onNewHeads`:
drain the mailbox, and when a latest head was present drive exactly one
dispatch pass (`onNewHeadsDispatch`) with it; when the mailbox was empty
no dispatch happens and the state is untouched. -/
def onNewHeadsRun (cfg : Config) (highestNumConfirmations : Nat)
    (orm : Int → Int → Except Unit Broadcasts) (pool : LogPool)
    (lastSeen : Int) (mb : Option MailboxItem) : HeadsRunResult :=
  match selectLatestHead mb.toList with
  | none => { dispatchedHeads := [], pool := pool, lastSeenHeadNumber := lastSeen }
  | some h =>
      let r := onNewHeadsDispatch cfg highestNumConfirmations orm h pool
      { dispatchedHeads := [h], pool := r.pool,
        lastSeenHeadNumber := r.lastSeenHeadNumber }

/-! ## appendLogChannel (`broadcaster.appendLogChannel`, lines 477-507) -/

/-- The forwarding loop of `appendLogChannel` over one input channel,
modelled on the list of items the channel will yield before closing.
`stopBudget = none` means the shutdown signal never fires; `stopBudget =
some k` means the `select` chooses the `chStop` arm once `k` further
sends have completed, at which point the goroutine returns and the
remaining items are dropped.  Returns the forwarded items and the
remaining budget. -/
def forwardUntilStop : Option Nat → List RawLog → List RawLog × Option Nat
  | fuel, [] => ([], fuel)
  | none, l :: rest =>
      ((forwardUntilStop none rest).1.cons l, (forwardUntilStop none rest).2)
  | some 0, _ :: _ => ([], some 0)
  | some (k + 1), l :: rest =>
      ((forwardUntilStop (some k) rest).1.cons l,
        (forwardUntilStop (some k) rest).2)

/-- `broadcaster.appendLogChannel`: `none` stands for a nil channel, and
`some items` for a channel that yields `items` and then closes.  With
two nil inputs the result is nil; otherwise a goroutine forwards all of
the first channel, then all of the second, onto a fresh channel, closing
it when both are drained or as soon as the shutdown signal wins a
`select`.  The result is the full list of items the combined channel
yields before closing. -/
def appendLogChannel (stopBudget : Option Nat)
    (ch1 ch2 : Option (List RawLog)) : Option (List RawLog) :=
  match ch1, ch2 with
  | none, none => none
  | _, _ =>
      let r1 := forwardUntilStop stopBudget (ch1.getD [])
      let r2 := forwardUntilStop r1.2 (ch2.getD [])
      some (r1.1 ++ r2.1)

/-! ## Register (`broadcaster.Register`, lines 196-212) -/

/-- `broadcaster.Register`: an empty `LogsWithTopics` map is a misuse
and is rejected fatally (`logger.Fatal`) before anything is delivered to
the `addSubscriber` mailbox; otherwise the registration is delivered.
The fatal path is modelled as returning the fatal message with the
mailbox unchanged. -/
def Register (listenerId : Nat) (opts : ListenerOpts)
    (addSubscriberMb : List MailboxItem) :
    Option String × List MailboxItem :=
  if opts.logsWithTopics.length == 0 then
    (some "LogBroadcaster: Must supply at least 1 LogsWithTopics element to Register",
      addSubscriberMb)
  else
    (none, addSubscriberMb ++ [MailboxItem.regItem ⟨listenerId, opts⟩])

/-! ## Connect (`broadcaster.Connect`, line 214) -/

/-- The full mutable state of a `broadcaster` value, as relevant to its
public interface: the log pool, the registrations, the three mailboxes,
the backfill override, the connected flag, and the two atomics. -/
structure BroadcasterState where
  pool : LogPool
  registrationsList : List Registration
  addSubscriberMb : List MailboxItem
  rmSubscriberMb : List MailboxItem
  newHeadsMb : Option MailboxItem
  backfillBlockNumber : Option Int
  connected : Bool
  trackedAddressesCount : Nat
  lastSeenHeadNumber : Int
  highestSavedHead : Option Head
deriving DecidableEq, Repr

/-- `broadcaster.Connect(head)`: the body is `return nil` — no field is
read or written (the `head` argument is ignored, as in the source). -/
def Connect (b : BroadcasterState) (head : Option Head) :
    BroadcasterState × Option String :=
  (b, none)

/-! ## Concrete fixtures for evaluation -/

/-- A concrete configuration for evaluating the definitions. -/
def cfgA : Config :=
  { blockBackfillDepth := 5, blockBackfillSkip := false,
    ethFinalityDepth := 50, ethLogBackfillBatchSize := 100 }

/-- The same configuration with `BlockBackfillSkip` set. -/
def cfgSkip : Config :=
  { blockBackfillDepth := 5, blockBackfillSkip := true,
    ethFinalityDepth := 50, ethLogBackfillBatchSize := 100 }

/-- A concrete unremoved log at block 10. -/
def logA : RawLog :=
  { address := 1, blockNumber := 10, blockHash := 5,
    txIndex := 0, logIndex := 0, removed := false }

/-- A concrete head at block 20. -/
def headA : Head := { number := 20, hash := 7, parentHash := 6 }

/-- An ORM whose `FindConsumedLogs` always fails. -/
def ormFailing : Int → Int → Except Unit Broadcasts :=
  fun _ _ => Except.error ()

/-- An ORM whose `FindConsumedLogs` always succeeds with no rows. -/
def ormEmpty : Int → Int → Except Unit Broadcasts :=
  fun _ _ => Except.ok []

/-! ## Shared helper lemmas -/

/-- Every arm of the dispatch pass stores the head's number into
`lastSeenHeadNumber`. -/
lemma dispatch_lastSeenHeadNumber (cfg : Config) (conf : Nat)
    (orm : Int → Int → Except Unit Broadcasts) (h : Head) (pool : LogPool) :
    (onNewHeadsDispatch cfg conf orm h pool).lastSeenHeadNumber = h.number := by
  simp only [onNewHeadsDispatch]
  split
  · split
    · split <;> rfl
    · rfl
  · split
    · split <;> rfl
    · rfl

/-- Delivering a burst of heads into the latest-only mailbox leaves
exactly the last head of the burst. -/
lemma deliverAllHeads_eq_last :
    ∀ (hs : List Head) (h : Head), hs.getLast? = some h →
      ∀ mb0 : Option MailboxItem,
        deliverAllHeads mb0 hs = some (MailboxItem.headItem h)
  | [], h, hlast, _ => by simp at hlast
  | [x], h, hlast, mb0 => by
      simp only [List.getLast?_singleton, Option.some.injEq] at hlast
      subst hlast
      rfl
  | x :: y :: t, h, hlast, mb0 => by
      rw [List.getLast?_cons_cons] at hlast
      have ih := deliverAllHeads_eq_last (y :: t) h hlast
        (some (MailboxItem.headItem x))
      simpa [deliverAllHeads] using ih

/-- Unbounded forwarding copies the entire channel contents. -/
lemma forwardUntilStop_none_eq (l : List RawLog) :
    forwardUntilStop none l = (l, none) := by
  induction l with
  | nil => rfl
  | cons x xs ih => simp [forwardUntilStop, ih]

/-- Forwarding with a stop budget copies exactly that many items and
reports the remaining budget. -/
lemma forwardUntilStop_some_eq :
    ∀ (l : List RawLog) (k : Nat),
      forwardUntilStop (some k) l = (l.take k, some (k - l.length))
  | [], k => by simp [forwardUntilStop]
  | x :: xs, 0 => by simp [forwardUntilStop]
  | x :: xs, k + 1 => by
      simp [forwardUntilStop, forwardUntilStop_some_eq xs k,
        Nat.succ_sub_succ]

/-- Skipping an item that fails the registration type assertion does not
change a subscriber drain, whatever the accumulated state. -/
lemma drainSubscriberItems_skip_junk {σ : Type}
    (step : σ → Registration → σ × Bool) (j : MailboxItem)
    (hj : j.isReg = false) :
    ∀ (xs ys : List MailboxItem) (st : σ) (needs : Bool),
      drainSubscriberItems step (xs ++ j :: ys) st needs =
        drainSubscriberItems step (xs ++ ys) st needs
  | [], ys, st, needs => by
      cases j with
      | headItem h => simp [drainSubscriberItems]
      | regItem r => simp [MailboxItem.isReg] at hj
      | junkItem s => simp [drainSubscriberItems]
  | x :: xs, ys, st, needs => by
      cases x with
      | headItem h =>
          simpa [drainSubscriberItems] using
            drainSubscriberItems_skip_junk step j hj xs ys st needs
      | regItem r =>
          simpa [drainSubscriberItems] using
            drainSubscriberItems_skip_junk step j hj xs ys
              (step st r).1 (needs || (step st r).2)
      | junkItem s =>
          simpa [drainSubscriberItems] using
            drainSubscriberItems_skip_junk step j hj xs ys st needs

/-! ## Claim theorems -/

/-- C2 (counterexample): the claim says that when several replay
requests arrive before the event loop consumes one, the newest request
overwrites the older pending one.  In the code the send is a `select`
with a `default` arm on an already-full capacity-1 channel, so the new
request is dropped: after `ReplayFromBlock 5` then `ReplayFromBlock 7`
the pending value is still 5, not 7. -/
theorem claim2_counterexample :
    ReplayFromBlock (ReplayFromBlock none 5) 7 = some 5 ∧ (5 : Int) ≠ 7 := by
  decide

/-- C2 (amended): `ReplayFromBlock(n)` performs a non-blocking write of
`n` into the single-slot replay channel; when a request is already
pending, the new request is dropped and the older pending one survives.
When the event loop receives `n` from the channel it sets
`backfillBlockNumber := n` and returns `(resubscribe := true, nil)`, and
the subsequent resubscribe pass keeps the seeded `backfillBlockNumber =
n` as the backfill start when no saved head overrides it. -/
theorem claim2_replay_amended (st : EventLoopState) (n pending : Int) :
    ReplayFromBlock none n = some n ∧
    ReplayFromBlock (some pending) n = some pending ∧
    eventLoopOnReplay st n = ({ backfillBlockNumber := some n }, true, none) ∧
    ∀ cfg conf,
      (resubBackfillStep cfg conf
        { highestSavedHead := none,
          backfillBlockNumber := some n }).backfillBlockNumber = some n := by
  refine ⟨rfl, rfl, rfl, ?_⟩
  intro cfg conf
  simp [resubBackfillStep]

/-- C3: during Resubscribing, when `highestSavedHead` is present and
`BlockBackfillSkip` is not set, the broadcaster sets
`backfillBlockNumber := max(0, head.number - highestNumConfirmations -
BlockBackfillDepth)` and clears the saved head; when `BlockBackfillSkip`
is set, the saved head is dropped without touching
`backfillBlockNumber`. -/
theorem claim3_backfill_seed (cfg : Config) (conf : Nat) (st : ResubState)
    (h : Head) (hsaved : st.highestSavedHead = some h) :
    (cfg.blockBackfillSkip = false →
      resubBackfillStep cfg conf st =
        { highestSavedHead := none,
          backfillBlockNumber :=
            some (max 0 (h.number - (conf : Int) -
              (cfg.blockBackfillDepth : Int))) }) ∧
    (cfg.blockBackfillSkip = true →
      resubBackfillStep cfg conf st =
        { highestSavedHead := none,
          backfillBlockNumber := st.backfillBlockNumber }) := by
  constructor
  · intro hskip
    simp only [resubBackfillStep, hskip, hsaved, Bool.false_and, if_neg
      (by simp : ¬(false = true))]
    have hmax :
        (if h.number - (conf : Int) - (cfg.blockBackfillDepth : Int) < 0 then 0
          else h.number - (conf : Int) - (cfg.blockBackfillDepth : Int)) =
        max 0 (h.number - (conf : Int) - (cfg.blockBackfillDepth : Int)) := by
      split <;> omega
    rw [hmax]
  · intro hskip
    simp [resubBackfillStep, hskip, hsaved]

/-- C3 witness: concrete evaluation of the backfill seeding at a saved
head of number 20 with 3 confirmations and depth 5 (start `20-3-5=12`),
and of the skip branch. -/
theorem claim3_backfill_seed_witness :
    resubBackfillStep cfgA 3
        { highestSavedHead := some headA, backfillBlockNumber := none } =
      { highestSavedHead := none, backfillBlockNumber := some 12 } ∧
    resubBackfillStep cfgSkip 3
        { highestSavedHead := some headA, backfillBlockNumber := none } =
      { highestSavedHead := none, backfillBlockNumber := none } := by
  constructor
  · have h := (claim3_backfill_seed cfgA 3
      { highestSavedHead := some headA, backfillBlockNumber := none }
      headA rfl).1 rfl
    rw [h]
    decide
  · exact (claim3_backfill_seed cfgSkip 3
      { highestSavedHead := some headA, backfillBlockNumber := none }
      headA rfl).2 rfl

/-- C5: for every raw log handed to the event loop, a `removed` log has
its `(blockHash, logIndex)` entry removed from the pool and is not
stored; an unremoved log is added exactly when its address is
registered, and otherwise the pool is left unchanged. -/
theorem claim5_onNewLog (registered : Nat → Bool) (pool : LogPool)
    (log : RawLog) :
    (log.removed = true →
      onNewLog registered pool log = removeLog pool log ∧
      ∀ l ∈ onNewLog registered pool log, sameKey l log = false) ∧
    (log.removed = false →
      (registered log.address = true →
        onNewLog registered pool log = addLog pool log ∧
        log ∈ onNewLog registered pool log) ∧
      (registered log.address = false →
        onNewLog registered pool log = pool)) := by
  constructor
  · intro hrem
    have heq : onNewLog registered pool log = removeLog pool log := by
      simp [onNewLog, hrem]
    refine ⟨heq, ?_⟩
    intro l hl
    rw [heq] at hl
    simp only [removeLog, List.mem_filter, Bool.not_eq_true'] at hl
    exact hl.2
  · intro hrem
    constructor
    · intro hreg
      have heq : onNewLog registered pool log = addLog pool log := by
        simp [onNewLog, hrem, hreg]
      refine ⟨heq, ?_⟩
      rw [heq]
      simp [addLog]
    · intro hreg
      simp [onNewLog, hrem, hreg]

/-- C5 witness: concrete evaluation of `onNewLog` — a removed log is
erased from a pool holding its key; an unremoved log is added when its
address is registered and discarded when it is not. -/
theorem claim5_onNewLog_witness :
    (onNewLog (fun _ => true) [logA]
        { logA with removed := true } = [] ∧
      ∀ l ∈ onNewLog (fun _ => true) [logA] { logA with removed := true },
        sameKey l { logA with removed := true } = false) ∧
    onNewLog (fun a => a == 1) [] logA = [logA] ∧
    onNewLog (fun a => a == 2) [] logA = [] := by
  refine ⟨⟨?_, ?_⟩, ?_, ?_⟩
  · exact ((claim5_onNewLog (fun _ => true) [logA]
      { logA with removed := true }).1 rfl).1
  · exact ((claim5_onNewLog (fun _ => true) [logA]
      { logA with removed := true }).1 rfl).2
  · exact (((claim5_onNewLog (fun a => a == 1) [] logA).2 rfl).1 (by decide)).1
  · exact ((claim5_onNewLog (fun a => a == 2) [] logA).2 rfl).2 (by decide)

/-- C7: `appendLogChannel a b` forwards every item of `a` in order, then
every item of `b` in order, and closes once both are drained (yielding
exactly `a ++ b`); when the shutdown signal fires after `k` forwarded
items the combined channel closes having yielded only those first `k`
items, the rest being dropped. -/
theorem claim7_appendLogChannel (a b : List RawLog) :
    appendLogChannel none (some a) (some b) = some (a ++ b) ∧
    ∀ k : Nat,
      appendLogChannel (some k) (some a) (some b) = some ((a ++ b).take k) := by
  constructor
  · simp [appendLogChannel, forwardUntilStop_none_eq]
  · intro k
    simp [appendLogChannel, forwardUntilStop_some_eq,
      List.take_append_eq_append_take]

/-- C8: `Register` rejects options whose `LogsWithTopics` map is empty:
the call fails fatally with the misuse message and nothing is delivered
to the `addSubscriber` mailbox. -/
theorem claim8_register_rejects_empty (listenerId : Nat)
    (opts : ListenerOpts) (mb : List MailboxItem)
    (hempty : opts.logsWithTopics = []) :
    (Register listenerId opts mb).1 =
      some "LogBroadcaster: Must supply at least 1 LogsWithTopics element to Register" ∧
    (Register listenerId opts mb).2 = mb := by
  simp [Register, hempty]

/-- C8 witness: concrete evaluation of `Register` at empty options. -/
theorem claim8_register_rejects_empty_witness :
    (Register 1 { contract := 9, logsWithTopics := [], numConfirmations := 0 }
        []).1 =
      some "LogBroadcaster: Must supply at least 1 LogsWithTopics element to Register" ∧
    (Register 1 { contract := 9, logsWithTopics := [], numConfirmations := 0 }
        []).2 = [] :=
  claim8_register_rejects_empty 1
    { contract := 9, logsWithTopics := [], numConfirmations := 0 } [] rfl

/-- C9: the event loop never aborts on a mailbox item of an unexpected
dynamic type — the head-selection loop of `onNewHeads` and the drain
loops of `onAddSubscribers`/`onRmSubscribers` (both instances of
`drainSubscriberItems`) skip such an item and process the remaining
items exactly as if it had not been there. -/
theorem claim9_junk_items_skipped {σ : Type}
    (step : σ → Registration → σ × Bool) (st : σ)
    (xs ys : List MailboxItem) (j : MailboxItem) :
    (j.isHead = false →
      selectLatestHead (xs ++ j :: ys) = selectLatestHead (xs ++ ys)) ∧
    (j.isReg = false →
      drainSubscriberItems step (xs ++ j :: ys) st false =
        drainSubscriberItems step (xs ++ ys) st false) := by
  constructor
  · intro hj
    unfold selectLatestHead
    rw [List.foldl_append, List.foldl_append, List.foldl_cons]
    cases j with
    | headItem h => simp [MailboxItem.isHead] at hj
    | regItem r => rfl
    | junkItem s => rfl
  · intro hj
    exact drainSubscriberItems_skip_junk step j hj xs ys st false

/-- C9 witness: concrete evaluation — a junk item between a skipped and
a kept head leaves the selected head unchanged, and a junk item in a
subscriber drain leaves the drain result unchanged. -/
theorem claim9_junk_items_skipped_witness :
    selectLatestHead
        [MailboxItem.headItem headA, MailboxItem.junkItem "int",
          MailboxItem.headItem headA] =
      selectLatestHead [MailboxItem.headItem headA, MailboxItem.headItem headA] ∧
    drainSubscriberItems (fun (n : Nat) (_ : Registration) => (n + 1, true))
        [MailboxItem.headItem headA, MailboxItem.junkItem "int"] 0 false =
      drainSubscriberItems (fun (n : Nat) (_ : Registration) => (n + 1, true))
        [MailboxItem.headItem headA] 0 false := by
  constructor
  · exact (claim9_junk_items_skipped
      (fun (n : Nat) (_ : Registration) => (n + 1, true)) 0
      [MailboxItem.headItem headA] [MailboxItem.headItem headA]
      (MailboxItem.junkItem "int")).1 rfl
  · exact (claim9_junk_items_skipped
      (fun (n : Nat) (_ : Registration) => (n + 1, true)) 0
      [MailboxItem.headItem headA] [] (MailboxItem.junkItem "int")).2 rfl

/-- C10: `Connect` returns nil and leaves every field of the broadcaster
state — pool, registrations, mailboxes, backfill block number, connected
flag and atomics — unchanged: a pure no-op at the public interface. -/
theorem claim10_connect_noop (b : BroadcasterState) (head : Option Head) :
    Connect b head = (b, none) ∧
    (Connect b head).1.pool = b.pool ∧
    (Connect b head).1.registrationsList = b.registrationsList ∧
    (Connect b head).1.addSubscriberMb = b.addSubscriberMb ∧
    (Connect b head).1.rmSubscriberMb = b.rmSubscriberMb ∧
    (Connect b head).1.newHeadsMb = b.newHeadsMb ∧
    (Connect b head).1.backfillBlockNumber = b.backfillBlockNumber ∧
    (Connect b head).1.connected = b.connected ∧
    (Connect b head).1.trackedAddressesCount = b.trackedAddressesCount ∧
    (Connect b head).1.lastSeenHeadNumber = b.lastSeenHeadNumber ∧
    (Connect b head).1.highestSavedHead = b.highestSavedHead ∧
    (Connect b head).2 = none := by
  exact ⟨rfl, rfl, rfl, rfl, rfl, rfl, rfl, rfl, rfl, rfl, rfl, rfl⟩

/-- The kept-depth threshold computed by `onNewHeadsDispatch` equals
`max (H - max(EthFinalityDepth, highestNumConfirmations)) 0`. -/
lemma keptDepth_eq_max (cfg : Config) (conf : Nat) (H : Int) :
    (if H - ((if conf > cfg.ethFinalityDepth then conf
          else cfg.ethFinalityDepth : Nat) : Int) < 0 then 0
      else H - ((if conf > cfg.ethFinalityDepth then conf
          else cfg.ethFinalityDepth : Nat) : Int)) =
      max (H - ((max cfg.ethFinalityDepth conf : Nat) : Int)) 0 := by
  have hmaxn : (if conf > cfg.ethFinalityDepth then conf
      else cfg.ethFinalityDepth) = max cfg.ethFinalityDepth conf := by
    split <;> omega
  rw [hmaxn]
  split <;> omega

/-- C1 (counterexample): the claim asserts that on a `FindConsumedLogs`
failure every log in the pool before the pass is still there afterwards,
in both branches of `onNewHeads`.  In the
`highest_num_confirmations == 0` branch the pool is drained by
`getAndDeleteAll` before the ORM query, so when the query fails the
drained logs are gone: at head 20 with pool `[logA]` and a failing ORM,
`sendLogs` is indeed not called, but `logA` is no longer in the pool. -/
theorem claim1_counterexample :
    logA ∈ ([logA] : LogPool) ∧
    (onNewHeadsDispatch cfgA 0 ormFailing headA [logA]).sendLogsCalls = [] ∧
    logA ∉ (onNewHeadsDispatch cfgA 0 ormFailing headA [logA]).pool := by
  decide

/-- C1 (amended): if `FindConsumedLogs` fails during a head-driven
dispatch pass, the pass is aborted without calling `sendLogs` in both
branches of `onNewHeads`; in the `highest_num_confirmations > 0` branch
every log that was in the pool before the pass is still there afterwards
(the eviction is skipped too), while in the
`highest_num_confirmations == 0` branch the pool has already been
drained by `getAndDeleteAll` and the drained logs are not restored. -/
theorem claim1_orm_failure_aborts_amended (cfg : Config) (conf : Nat)
    (orm : Int → Int → Except Unit Broadcasts) (head : Head)
    (pool : LogPool) :
    (0 < conf →
      (getLogsToSend pool head.number).1 ≠ [] →
      ∀ e, orm (getLogsToSend pool head.number).2 head.number =
          Except.error e →
        (onNewHeadsDispatch cfg conf orm head pool).sendLogsCalls = [] ∧
        (onNewHeadsDispatch cfg conf orm head pool).pool = pool) ∧
    (conf = 0 →
      ∀ e, orm (getAndDeleteAll pool).2.1 (getAndDeleteAll pool).2.2 =
          Except.error e →
        (onNewHeadsDispatch cfg conf orm head pool).sendLogsCalls = []) := by
  constructor
  · intro hconf hne e horm
    have h0 : (conf == 0) = false := by
      simp only [beq_eq_false_iff_ne, ne_eq]
      omega
    have hlen : 0 < (getLogsToSend pool head.number).1.length :=
      List.length_pos.mpr hne
    simp only [onNewHeadsDispatch, h0, Bool.false_eq_true, if_false,
      gt_iff_lt, if_pos hlen, horm]
    constructor <;> trivial
  · intro hc e horm
    subst hc
    by_cases hl : 0 < (getAndDeleteAll pool).1.length
    · simp only [onNewHeadsDispatch, beq_self_eq_true, if_true, gt_iff_lt,
        if_pos hl, horm]
    · simp only [onNewHeadsDispatch, beq_self_eq_true, if_true, gt_iff_lt,
        if_neg hl]

/-- C1 witness: concrete evaluation of the amended claim — with one
required confirmation and a failing ORM, the pass at head 20 with pool
`[logA]` sends nothing and keeps the pool intact; with zero required
confirmations it sends nothing. -/
theorem claim1_orm_failure_aborts_amended_witness :
    ((onNewHeadsDispatch cfgA 1 ormFailing headA [logA]).sendLogsCalls = [] ∧
      (onNewHeadsDispatch cfgA 1 ormFailing headA [logA]).pool = [logA]) ∧
    (onNewHeadsDispatch cfgA 0 ormFailing headA [logA]).sendLogsCalls = [] :=
  ⟨(claim1_orm_failure_aborts_amended cfgA 1 ormFailing headA [logA]).1
      (by decide) (by decide) () rfl,
    (claim1_orm_failure_aborts_amended cfgA 0 ormFailing headA [logA]).2
      rfl () rfl⟩

/-- C4: the shape of one dispatch pass.  When
`highest_num_confirmations == 0` the pool is drained entirely via
`getAndDeleteAll`, and `FindConsumedLogs (lowest, highest)` and
`sendLogs` run only when the drained logs are non-empty.  Otherwise the
logs come from `getLogsToSend(H)`, `FindConsumedLogs (min_block, H)` and
`sendLogs` run only when they are non-empty, and the pool is evicted
with `deleteOlderLogs (max (H - kept_depth) 0)` where `kept_depth =
max(EthFinalityDepth, highest_num_confirmations)`. -/
theorem claim4_dispatch_pass (cfg : Config) (conf : Nat)
    (orm : Int → Int → Except Unit Broadcasts) (head : Head)
    (pool : LogPool) :
    (conf = 0 →
      (onNewHeadsDispatch cfg conf orm head pool).pool = [] ∧
      ((getAndDeleteAll pool).1 = [] →
        (onNewHeadsDispatch cfg conf orm head pool).findConsumedCalls = [] ∧
        (onNewHeadsDispatch cfg conf orm head pool).sendLogsCalls = []) ∧
      ((getAndDeleteAll pool).1 ≠ [] →
        (onNewHeadsDispatch cfg conf orm head pool).findConsumedCalls =
          [((getAndDeleteAll pool).2.1, (getAndDeleteAll pool).2.2)] ∧
        ∀ bs, orm (getAndDeleteAll pool).2.1 (getAndDeleteAll pool).2.2 =
            Except.ok bs →
          (onNewHeadsDispatch cfg conf orm head pool).sendLogsCalls =
            [((getAndDeleteAll pool).1, head, bs)])) ∧
    (0 < conf →
      ((getLogsToSend pool head.number).1 = [] →
        (onNewHeadsDispatch cfg conf orm head pool).findConsumedCalls = [] ∧
        (onNewHeadsDispatch cfg conf orm head pool).sendLogsCalls = [] ∧
        (onNewHeadsDispatch cfg conf orm head pool).pool =
          deleteOlderLogs pool
            (max (head.number - ((max cfg.ethFinalityDepth conf : Nat) : Int))
              0).toNat) ∧
      ((getLogsToSend pool head.number).1 ≠ [] →
        (onNewHeadsDispatch cfg conf orm head pool).findConsumedCalls =
          [((getLogsToSend pool head.number).2, head.number)] ∧
        ∀ bs, orm (getLogsToSend pool head.number).2 head.number =
            Except.ok bs →
          (onNewHeadsDispatch cfg conf orm head pool).sendLogsCalls =
            [((getLogsToSend pool head.number).1, head, bs)] ∧
          (onNewHeadsDispatch cfg conf orm head pool).pool =
            deleteOlderLogs pool
              (max (head.number -
                  ((max cfg.ethFinalityDepth conf : Nat) : Int)) 0).toNat)) := by
  constructor
  · intro hc
    subst hc
    by_cases hl : 0 < (getAndDeleteAll pool).1.length
    · have hne : (getAndDeleteAll pool).1 ≠ [] := List.length_pos.mp hl
      refine ⟨?_, ?_, ?_⟩
      · simp only [onNewHeadsDispatch, beq_self_eq_true, if_true, gt_iff_lt,
          if_pos hl]
        cases horm : orm (getAndDeleteAll pool).2.1 (getAndDeleteAll pool).2.2
          with
        | error e => rfl
        | ok bs => rfl
      · intro hemp
        exact absurd hemp hne
      · intro _
        constructor
        · simp only [onNewHeadsDispatch, beq_self_eq_true, if_true, gt_iff_lt,
            if_pos hl]
          cases horm : orm (getAndDeleteAll pool).2.1
            (getAndDeleteAll pool).2.2 with
          | error e => rfl
          | ok bs => rfl
        · intro bs hbs
          simp only [onNewHeadsDispatch, beq_self_eq_true, if_true, gt_iff_lt,
            if_pos hl, hbs]
    · have hemp : (getAndDeleteAll pool).1 = [] := by
        cases h : (getAndDeleteAll pool).1 with
        | nil => rfl
        | cons x xs => rw [h] at hl; simp at hl
      refine ⟨?_, ?_, ?_⟩
      · simp only [onNewHeadsDispatch, beq_self_eq_true, if_true, gt_iff_lt,
          if_neg hl]
      · intro _
        constructor <;>
          simp only [onNewHeadsDispatch, beq_self_eq_true, if_true, gt_iff_lt,
            if_neg hl]
      · intro hne
        exact absurd hemp hne
  · intro hconf
    have h0 : (conf == 0) = false := by
      simp only [beq_eq_false_iff_ne, ne_eq]
      omega
    constructor
    · intro hemp
      have hl : ¬ 0 < (getLogsToSend pool head.number).1.length := by
        rw [hemp]
        simp
      refine ⟨?_, ?_, ?_⟩ <;>
        simp only [onNewHeadsDispatch, h0, Bool.false_eq_true, if_false,
          gt_iff_lt, if_neg hl, keptDepth_eq_max]
    · intro hne
      have hl : 0 < (getLogsToSend pool head.number).1.length :=
        List.length_pos.mpr hne
      constructor
      · simp only [onNewHeadsDispatch, h0, Bool.false_eq_true, if_false,
          gt_iff_lt, if_pos hl]
        cases horm : orm (getLogsToSend pool head.number).2 head.number with
        | error e => rfl
        | ok bs => rfl
      · intro bs hbs
        simp only [onNewHeadsDispatch, h0, Bool.false_eq_true, if_false,
          gt_iff_lt, if_pos hl, hbs, keptDepth_eq_max]
        constructor <;> trivial

/-- C4 witness: concrete evaluation of a successful dispatch pass at
head 20 with pool `[logA]` — in the zero-confirmations branch the pool
is drained and the query covers blocks 10 to 10; with two required
confirmations the query covers blocks 10 to 20, `sendLogs` receives the
logs, and the eviction threshold is `max (20 - max 50 2) 0 = 0`. -/
theorem claim4_dispatch_pass_witness :
    ((onNewHeadsDispatch cfgA 0 ormEmpty headA [logA]).pool = [] ∧
      (onNewHeadsDispatch cfgA 0 ormEmpty headA [logA]).findConsumedCalls =
        [(10, 10)] ∧
      (onNewHeadsDispatch cfgA 0 ormEmpty headA [logA]).sendLogsCalls =
        [([logA], headA, [])]) ∧
    ((onNewHeadsDispatch cfgA 2 ormEmpty headA [logA]).findConsumedCalls =
        [(10, 20)] ∧
      (onNewHeadsDispatch cfgA 2 ormEmpty headA [logA]).sendLogsCalls =
        [([logA], headA, [])] ∧
      (onNewHeadsDispatch cfgA 2 ormEmpty headA [logA]).pool =
        deleteOlderLogs [logA]
          (max ((20 : Int) - ((max 50 2 : Nat) : Int)) 0).toNat) := by
  have c := claim4_dispatch_pass cfgA 0 ormEmpty headA [logA]
  have d := claim4_dispatch_pass cfgA 2 ormEmpty headA [logA]
  have c0 := c.1 rfl
  have cne := c0.2.2 (by decide)
  have d2 := d.2 (by decide)
  have dne := d2.2 (by decide)
  have dok := dne.2 [] rfl
  refine ⟨⟨c0.1, ?_, cne.2 [] rfl⟩, ?_, dok.1, dok.2⟩
  · have := cne.1
    simpa using this
  · have := dne.1
    simpa using this

/-- C6: when several heads pile up before the event loop services the
capacity-1 `newHeads` mailbox, only the latest remains; `onNewHeads`
drains the mailbox, drives exactly one dispatch pass using that latest
head, and updates `lastSeenHeadNumber` to its number — the intermediate
heads drive no dispatch at all. -/
theorem claim6_latest_head_collapse (cfg : Config) (conf : Nat)
    (orm : Int → Int → Except Unit Broadcasts) (pool : LogPool)
    (lastSeen : Int) (mb0 : Option MailboxItem) (hs : List Head) (h : Head)
    (hlast : hs.getLast? = some h) :
    deliverAllHeads mb0 hs = some (MailboxItem.headItem h) ∧
    (onNewHeadsRun cfg conf orm pool lastSeen
        (deliverAllHeads mb0 hs)).dispatchedHeads = [h] ∧
    (onNewHeadsRun cfg conf orm pool lastSeen
        (deliverAllHeads mb0 hs)).lastSeenHeadNumber = h.number ∧
    (onNewHeadsRun cfg conf orm pool lastSeen
        (deliverAllHeads mb0 hs)).pool =
      (onNewHeadsDispatch cfg conf orm h pool).pool := by
  have hd := deliverAllHeads_eq_last hs h hlast mb0
  rw [hd]
  exact ⟨rfl, rfl, dispatch_lastSeenHeadNumber cfg conf orm h pool, rfl⟩

/-- C6 witness: concrete evaluation — delivering the heads 10 and 20 in
a burst leaves only head 20 in the mailbox; servicing it dispatches once
with head 20 and sets `lastSeenHeadNumber` to 20. -/
theorem claim6_latest_head_collapse_witness :
    deliverAllHeads none [{ number := 10, hash := 1, parentHash := 0 }, headA] =
      some (MailboxItem.headItem headA) ∧
    (onNewHeadsRun cfgA 0 ormEmpty [] 0
        (deliverAllHeads none
          [{ number := 10, hash := 1, parentHash := 0 }, headA])).dispatchedHeads =
      [headA] ∧
    (onNewHeadsRun cfgA 0 ormEmpty [] 0
        (deliverAllHeads none
          [{ number := 10, hash := 1, parentHash := 0 }, headA])).lastSeenHeadNumber =
      headA.number := by
  have c := claim6_latest_head_collapse cfgA 0 ormEmpty [] 0 none
    [{ number := 10, hash := 1, parentHash := 0 }, headA] headA (by decide)
  exact ⟨c.1, c.2.1, c.2.2.1⟩

end LogBroadcaster
